import Mathlib

/-!
Verification development for the Business Idea Refinement Agent
(`business_idea_agent.py`).  The definitions below are a shallow embedding
of the program's logic: byte strings become `List Nat` (each entry a byte
value), Python `str` becomes Lean `String` (operations modelled at ASCII
level, which covers every input the claims mention), Python `int` values
become `Int`, and fallible operations (such as `struct.pack`, which raises
`struct.error` on out-of-range arguments) return `Option`.
-/

set_option maxHeartbeats 1600000

/-- ASCII whitespace characters recognised by Python's `str.strip()`
(space, tab, newline, carriage return, vertical tab, form feed). -/
def pyIsSpace (c : Char) : Bool :=
  c.toNat == 32 || c.toNat == 9 || c.toNat == 10 || c.toNat == 13 ||
  c.toNat == 11 || c.toNat == 12

/-- Python `str.strip()` on a list of characters: drop whitespace from
both ends. -/
def pyStrip (l : List Char) : List Char :=
  ((l.dropWhile pyIsSpace).reverse.dropWhile pyIsSpace).reverse

/-- Python `str.lower()` on one ASCII character. -/
def pyLower (c : Char) : Char :=
  if 65 ≤ c.toNat ∧ c.toNat ≤ 90 then Char.ofNat (c.toNat + 32) else c

/-- An ASCII decimal digit, the kind accepted inside Python's
`int()`. -/
def isDigitB (c : Char) : Bool :=
  decide (48 ≤ c.toNat ∧ c.toNat ≤ 57)

/-- Python `str.startswith(pat)` on character lists. -/
def startsWithL : List Char → List Char → Bool
  | [], _ => true
  | _ :: _, [] => false
  | p :: ps, c :: cs => p == c && startsWithL ps cs

/-- Python `str.split(";")`: split on every semicolon, keeping empty
pieces (so the empty string splits to one empty piece). -/
def splitSemi : List Char → List (List Char)
  | [] => [[]]
  | c :: cs =>
    if c = ';' then [] :: splitSemi cs
    else
      match splitSemi cs with
      | [] => [[c]]
      | t :: ts => (c :: t) :: ts

/-- Numeric value of a list of decimal digit characters. -/
def natOfDigits (l : List Char) : Nat :=
  l.foldl (fun a c => 10 * a + (c.toNat - 48)) 0

/-- After the first digit, Python's `int()` accepts digits with single
underscores strictly between digits. -/
def restUOk : List Char → Bool
  | [] => true
  | c :: rest =>
    if c = '_' then
      match rest with
      | [] => false
      | d :: rest2 => isDigitB d && restUOk (d :: rest2)
    else isDigitB c && restUOk rest

/-- A valid unsigned digit group for Python's `int()`: nonempty, starts
with a digit, underscores only between digits. -/
def digitsUOk : List Char → Bool
  | [] => false
  | c :: rest => isDigitB c && restUOk rest

/-- Value of a digit group accepted by `digitsUOk` (underscores are
ignored), `none` when the group is malformed.  CPython additionally
enforces its int-max-str-digits conversion limit (default 4300) on
decimal `int()` input: the sign and underscores are not counted, leading
zeros are, and a longer numeral raises `ValueError` — the second `none`
branch. -/
def digitsVal (l : List Char) : Option Nat :=
  if digitsUOk l then
    if 4300 < (l.filter (fun c => c != '_')).length then none
    else some (natOfDigits (l.filter (fun c => c != '_')))
  else none

/-- Sign handling of Python's `int(str)` after whitespace stripping: one
optional leading sign, then a digit group. -/
def pyIntCore : List Char → Option Int
  | [] => none
  | c :: rest =>
    if c = '-' then (digitsVal rest).map (fun n => -(n : Int))
    else if c = '+' then (digitsVal rest).map (fun n => (n : Int))
    else (digitsVal (c :: rest)).map (fun n => (n : Int))

/-- Python's `int(str)` builtin on ASCII input: strip whitespace, allow
one optional leading sign, then a digit group of at most 4300 digits
(CPython's default int-max-str-digits limit); raises (`none`) on
anything else. -/
def pyInt (l : List Char) : Option Int :=
  pyIntCore (pyStrip l)

/-- Result of `_parse_audio_mime_type`: the dict
`{"bits_per_sample": ..., "rate": ...}`. -/
structure AudioParams where
  bits_per_sample : Int
  rate : Int
deriving DecidableEq, Repr

/-- One iteration of the parameter loop in `_parse_audio_mime_type`:
strip the piece; if it case-insensitively starts with `rate=` try to
parse the text after the first `=` as the rate; otherwise if it starts
with `audio/L` (case-sensitively) try to parse the text after the first
`L` as the bit depth; parse failures leave the state unchanged. -/
def paramStep (st : AudioParams) (raw : List Char) : AudioParams :=
  let param := pyStrip raw
  if startsWithL "rate=".data (param.map pyLower) then
    { st with rate := (pyInt (param.drop 5)).getD st.rate }
  else if startsWithL "audio/L".data param then
    { st with bits_per_sample := (pyInt (param.drop 7)).getD st.bits_per_sample }
  else st

/-- Embedding of `_parse_audio_mime_type`: split the descriptor on `;`
and fold the parameter loop over the pieces starting from the defaults
bits=16, rate=24000. -/
def parse_audio_mime_type (mime : String) : AudioParams :=
  (splitSemi mime.data).foldl paramStep { bits_per_sample := 16, rate := 24000 }

example : parse_audio_mime_type "audio/L16;rate=24000" =
    { bits_per_sample := 16, rate := 24000 } := by decide

example : parse_audio_mime_type "audio/L24;rate=48000" =
    { bits_per_sample := 24, rate := 48000 } := by decide

example : parse_audio_mime_type "rate=abc" =
    { bits_per_sample := 16, rate := 24000 } := by decide

example : parse_audio_mime_type "rate=-5" =
    { bits_per_sample := 16, rate := -5 } := by decide

example : parse_audio_mime_type "" =
    { bits_per_sample := 16, rate := 24000 } := by decide

example : parse_audio_mime_type " RATE= 1_0 " =
    { bits_per_sample := 16, rate := 10 } := by decide

/-- Bytes of an ASCII string literal, for the fixed 4-byte tags packed by
`struct.pack` (`b"RIFF"`, `b"WAVE"`, `b"fmt "`, `b"data"`). -/
def asciiBytes (s : String) : List Nat :=
  s.data.map Char.toNat

/-- Little-endian 4-byte encoding of a natural number, as `struct.pack`
format `I` lays it out. -/
def le4 (n : Nat) : List Nat :=
  [n % 256, n / 256 % 256, n / 65536 % 256, n / 16777216 % 256]

/-- Little-endian 2-byte encoding of a natural number, as `struct.pack`
format `H` lays it out. -/
def le2 (n : Nat) : List Nat :=
  [n % 256, n / 256 % 256]

/-- Value denoted by a little-endian byte list (used to read fields back
out of the produced header). -/
def leVal : List Nat → Nat
  | [] => 0
  | b :: rest => b + 256 * leVal rest

/-- Range check `struct.pack` applies to format `I` (4-byte unsigned). -/
def inU32 (v : Int) : Bool :=
  decide (0 ≤ v ∧ v < 4294967296)

/-- Range check `struct.pack` applies to format `H` (2-byte unsigned). -/
def inU16 (v : Int) : Bool :=
  decide (0 ≤ v ∧ v < 65536)

/-- Embedding of `_convert_to_wav`.  It parses the MIME descriptor, then
packs `<4sI4s4sIHHIIHH4sI` with
`(b"RIFF", 36+n, b"WAVE", b"fmt ", 16, 1, 1, rate, byte_rate,
block_align, bits, b"data", n)` and appends the payload.  Python computes
`bytes_per_sample = bits_per_sample // 8` with floor division
(`Int.fdiv`), and `struct.pack` raises `struct.error` when an `I`/`H`
argument is outside its unsigned range; that failure is the `none`
branch. -/
def convert_to_wav (audio_data : List Nat) (mime_type : String) : Option (List Nat) :=
  let p := parse_audio_mime_type mime_type
  let bytes_per_sample := Int.fdiv p.bits_per_sample 8
  let block_align := 1 * bytes_per_sample
  let byte_rate := p.rate * block_align
  let n := audio_data.length
  if inU32 (36 + (n : Int)) && inU16 p.bits_per_sample && inU16 block_align &&
      inU32 p.rate && inU32 byte_rate && inU32 (n : Int) then
    some (asciiBytes "RIFF" ++ le4 (36 + n) ++ asciiBytes "WAVE" ++
      asciiBytes "fmt " ++ le4 16 ++ le2 1 ++ le2 1 ++ le4 p.rate.toNat ++
      le4 byte_rate.toNat ++ le2 block_align.toNat ++
      le2 p.bits_per_sample.toNat ++ asciiBytes "data" ++ le4 n ++ audio_data)
  else none

example : convert_to_wav [1, 2, 3] "audio/L16;rate=24000" =
    some ([82, 73, 70, 70] ++ [39, 0, 0, 0] ++ [87, 65, 86, 69] ++
      [102, 109, 116, 32] ++ [16, 0, 0, 0] ++ [1, 0] ++ [1, 0] ++
      [192, 93, 0, 0] ++ [128, 187, 0, 0] ++ [2, 0] ++ [16, 0] ++
      [100, 97, 116, 97] ++ [3, 0, 0, 0] ++ [1, 2, 3]) := by decide

example : convert_to_wav [] "rate=-1" = none := by decide

/-- Inline audio blob carried by a streamed part: the `data` bytes and
the declared `mime_type`. -/
structure InlineData where
  data : List Nat
  mime_type : String
deriving DecidableEq, Repr

/-- A part of a streamed candidate's content; `inline_data` may be
absent. -/
structure ChunkPart where
  inline_data : Option InlineData
deriving DecidableEq, Repr

/-- A streamed candidate: its `content` (with the list of parts) may be
absent. -/
structure Candidate where
  content : Option (List ChunkPart)
deriving DecidableEq, Repr

/-- One chunk of the speech-synthesis stream. -/
structure StreamChunk where
  candidates : List Candidate
deriving DecidableEq, Repr

/-- The per-chunk test in `generate_audio_feedback`: the chunk is usable
when `chunk.candidates`, `candidates[0].content` and `content.parts` are
all truthy and `parts[0].inline_data` holds a nonempty `data` buffer
(Python treats empty bytes as falsy). -/
def usableData (c : StreamChunk) : Option InlineData :=
  match c.candidates with
  | [] => none
  | cand :: _ =>
    match cand.content with
    | none => none
    | some parts =>
      match parts with
      | [] => none
      | part :: _ =>
        match part.inline_data with
        | none => none
        | some d => if d.data.isEmpty then none else some d

/-- The stream loop of `generate_audio_feedback`: scan chunks in order
and stop at the first usable one. -/
def firstAudioData : List StreamChunk → Option InlineData
  | [] => none
  | c :: rest =>
    match usableData c with
    | some d => some d
    | none => firstAudioData rest

/-- Output of `generate_audio_feedback`'s stream consumption, given the
environment's `mimetypes.guess_extension` table: the chosen file
extension and the bytes written.  When an extension is known the bytes
pass through unmodified; when it is unknown the extension is forced to
`.wav` and the bytes go through `_convert_to_wav`.  `none` models the
exception raised when no chunk carries audio (or the encoder itself
raises). -/
def generate_audio_output (guessExt : String → Option String)
    (chunks : List StreamChunk) : Option (String × List Nat) :=
  (firstAudioData chunks).bind (fun d =>
    match guessExt d.mime_type with
    | some ext => some (ext, d.data)
    | none => (convert_to_wav d.data d.mime_type).map (fun b => (".wav", b)))

/-- Python `pat in s` substring test on character lists. -/
def hasSubstr (pat : List Char) : List Char → Bool
  | [] => startsWithL pat []
  | c :: rest => startsWithL pat (c :: rest) || hasSubstr pat rest

/-- String-level wrappers used by the filesystem model. -/
def hasSubstrStr (s pat : String) : Bool :=
  hasSubstr pat.data s.data

/-- Python `str.strip()` at the `String` level. -/
def pyStripStr (s : String) : String :=
  String.mk (pyStrip s.data)

/-- Path of a queued idea file, `agent/user-ideas/pending/<name>`. -/
def pendingPath (name : String) : String :=
  "agent/user-ideas/pending/" ++ name

/-- `Path(p).name`: the component after the last slash. -/
def baseName (s : String) : String :=
  String.mk ((s.data.reverse.takeWhile (fun c => c != '/')).reverse)

/-- Name of the per-idea output folder created by
`process_business_idea`: `f"{timestamp}_{filename_suggestion}"`. -/
def folderName (ts slug : String) : String :=
  ts ++ "_" ++ slug

/-- The filesystem and network state the orchestration touches: the
pending idea files (name and content), the names in the evaluated
directory, the output folders under `agent/feedback` (folder name and
the file names inside), and a count of HTTP posts made to the email
provider. -/
structure FS where
  pendingFiles : List (String × String)
  evaluatedNames : List String
  folders : List (String × List String)
  emailCalls : Nat
deriving DecidableEq, Repr

/-- Embedding of `send_email_with_attachments`: when the Resend API key
is unset it returns `False` before any HTTP request; otherwise it makes
exactly one HTTP post whose success (`status_code == 200`) is the
environment's `providerOk` bit.  Result: the returned flag and the new
post count. -/
def send_email_with_attachments (hasResendKey providerOk : Bool)
    (calls : Nat) : Bool × Nat :=
  if hasResendKey then (providerOk, calls + 1) else (false, calls)

/-- Embedding of `move_idea_to_evaluated`: when the given path exists as
a pending file and the path mentions `pending`, the file is renamed into
the evaluated directory under its base name; otherwise nothing
changes. -/
def move_idea_to_evaluated (fs : FS) (path : String) : FS :=
  if (fs.pendingFiles.any (fun pr => pendingPath pr.1 == path)) &&
      hasSubstrStr path "pending" then
    { fs with
      pendingFiles := fs.pendingFiles.filter (fun pr => pendingPath pr.1 != path),
      evaluatedNames := baseName path :: fs.evaluatedNames }
  else fs

/-- Embedding of the success path of `process_business_idea`.  The
external calls are abstracted by the oracle data `slug` (the model's
filename suggestion), `ts` (the wall-clock timestamp string) and
`providerOk` (email provider success).  Steps, in source order: create
the timestamped output folder holding the audio file (renamed to
`<slug>_audio.wav`), the markdown, pdf and text analyses; optionally
send the email; move the input file out of the pending queue.  Returns
the new state and the `email_sent` flag of the result dict. -/
def process_business_idea (fs : FS) (slug ts : String)
    (sendEmail hasResendKey providerOk : Bool) (inputPath : Option String) :
    FS × Bool :=
  let files := [slug ++ "_audio.wav", slug ++ "_analysis.md",
    slug ++ "_analysis.pdf", slug ++ "_analysis.txt"]
  let fs1 : FS := { fs with folders := (folderName ts slug, files) :: fs.folders }
  let sent_calls :=
    if sendEmail then send_email_with_attachments hasResendKey providerOk fs1.emailCalls
    else (false, fs1.emailCalls)
  let fs2 : FS := { fs1 with emailCalls := sent_calls.2 }
  let fs3 :=
    match inputPath with
    | some p => move_idea_to_evaluated fs2 p
    | none => fs2
  (fs3, sent_calls.1)

/-- Oracle value for one idea's external interactions: either every
provider call succeeds (with the suggested slug, the timestamp and the
email provider's status), or the first provider call (the analysis
request, which precedes every filesystem write of the pipeline)
raises. -/
inductive IdeaOutcome where
  | ok (slug ts : String) (providerOk : Bool)
  | err
deriving DecidableEq, Repr

/-- Embedding of the batch loop of `main` over the snapshot of pending
idea files: read each file, skip it when its stripped content is empty
(neither counter moves), otherwise run `process_business_idea` on it —
counting a success on the processed counter and an oracle failure on the
failed counter.  Returns the final state, the processed count and the
failed count. -/
def runAll (fs : FS) (ideas : List (String × String))
    (outcome : String → IdeaOutcome) (sendEmail hasResendKey : Bool) :
    FS × Nat × Nat :=
  match ideas with
  | [] => (fs, 0, 0)
  | (name, content) :: rest =>
    if pyStripStr content = "" then runAll fs rest outcome sendEmail hasResendKey
    else
      match outcome name with
      | IdeaOutcome.err =>
        let r := runAll fs rest outcome sendEmail hasResendKey
        (r.1, r.2.1, r.2.2 + 1)
      | IdeaOutcome.ok slug ts providerOk =>
        let step := process_business_idea fs slug ts sendEmail hasResendKey
          providerOk (some (pendingPath name))
        let r := runAll step.1 rest outcome sendEmail hasResendKey
        (r.1, r.2.1 + 1, r.2.2)

/-- A wall-clock timestamp as `datetime.now()` exposes it to
`strftime("%Y%m%d_%H%M%S")`. -/
structure TS where
  year : Nat
  month : Nat
  day : Nat
  hour : Nat
  minute : Nat
  second : Nat
deriving DecidableEq, Repr

/-- Zero-padded four-digit field of `strftime` (`%Y`). -/
def pad4 (n : Nat) : List Char :=
  [Nat.digitChar (n / 1000 % 10), Nat.digitChar (n / 100 % 10),
   Nat.digitChar (n / 10 % 10), Nat.digitChar (n % 10)]

/-- Zero-padded two-digit field of `strftime` (`%m`, `%d`, `%H`, `%M`,
`%S`). -/
def pad2 (n : Nat) : List Char :=
  [Nat.digitChar (n / 10 % 10), Nat.digitChar (n % 10)]

/-- `datetime.now().strftime("%Y%m%d_%H%M%S")`. -/
def fmtTS (t : TS) : String :=
  String.mk (pad4 t.year ++ pad2 t.month ++ pad2 t.day ++ ['_'] ++
    pad2 t.hour ++ pad2 t.minute ++ pad2 t.second)

/-- Field ranges under which `strftime` produces its fixed-width
zero-padded digits (real timestamps lie well inside them). -/
@[reducible] def validTS (t : TS) : Prop :=
  t.year < 10000 ∧ t.month < 100 ∧ t.day < 100 ∧ t.hour < 100 ∧
    t.minute < 100 ∧ t.second < 100

example : fmtTS ⟨2024, 3, 7, 15, 4, 9⟩ = "20240307_150409" := by decide

/-! Helper lemmas about the character-level machinery. -/

theorem char_ne_of_toNat {c d : Char} (h : c.toNat ≠ d.toNat) : c ≠ d :=
  fun he => h (congrArg Char.toNat he)

theorem isDigitB_bounds {c : Char} (h : isDigitB c = true) :
    48 ≤ c.toNat ∧ c.toNat ≤ 57 :=
  of_decide_eq_true h

theorem digit_not_space {c : Char} (h : isDigitB c = true) :
    pyIsSpace c = false := by
  have hb := isDigitB_bounds h
  simp only [pyIsSpace, Bool.or_eq_false_iff, beq_eq_false_iff_ne, ne_eq]
  omega

theorem digit_pyLower {c : Char} (h : isDigitB c = true) : pyLower c = c := by
  have hb := isDigitB_bounds h
  unfold pyLower
  rw [if_neg (by omega)]

theorem digit_ne_semi {c : Char} (h : isDigitB c = true) : c ≠ ';' := by
  have hb := isDigitB_bounds h
  exact char_ne_of_toNat (by rw [show Char.toNat ';' = 59 from rfl]; omega)

theorem digit_ne_minus {c : Char} (h : isDigitB c = true) : c ≠ '-' := by
  have hb := isDigitB_bounds h
  exact char_ne_of_toNat (by rw [show Char.toNat '-' = 45 from rfl]; omega)

theorem digit_ne_plus {c : Char} (h : isDigitB c = true) : c ≠ '+' := by
  have hb := isDigitB_bounds h
  exact char_ne_of_toNat (by rw [show Char.toNat '+' = 43 from rfl]; omega)

theorem digit_bne_underscore {c : Char} (h : isDigitB c = true) :
    (c != '_') = true := by
  have hb := isDigitB_bounds h
  simp only [bne_iff_ne, ne_eq]
  exact char_ne_of_toNat (by rw [show Char.toNat '_' = 95 from rfl]; omega)

theorem dropWhile_eq_self_of {p : Char → Bool} {l : List Char}
    (h : ∀ c ∈ l, p c = false) : l.dropWhile p = l := by
  cases l with
  | nil => rfl
  | cons a t => simp [List.dropWhile_cons, h a (by simp)]

theorem pyStrip_eq_self {l : List Char} (h : ∀ c ∈ l, pyIsSpace c = false) :
    pyStrip l = l := by
  unfold pyStrip
  rw [dropWhile_eq_self_of h,
    dropWhile_eq_self_of (fun c hc => h c (List.mem_reverse.mp hc)),
    List.reverse_reverse]

theorem splitSemi_eq_single {l : List Char} (h : ∀ c ∈ l, c ≠ ';') :
    splitSemi l = [l] := by
  induction l with
  | nil => rfl
  | cons a t ih =>
    unfold splitSemi
    rw [if_neg (h a (by simp))]
    rw [ih (fun c hc => h c (by simp [hc]))]

theorem startsWithL_append_self (l m : List Char) :
    startsWithL l (l ++ m) = true := by
  induction l with
  | nil => rfl
  | cons a t ih => simp [startsWithL, ih]

theorem restUOk_of_digits {l : List Char} (h : ∀ c ∈ l, isDigitB c = true) :
    restUOk l = true := by
  induction l with
  | nil => rfl
  | cons a t ih =>
    have ha := h a (by simp)
    unfold restUOk
    rw [if_neg (char_ne_of_toNat
      (by have hb := isDigitB_bounds ha
          rw [show Char.toNat '_' = 95 from rfl]; omega))]
    rw [ha, ih (fun c hc => h c (by simp [hc])), Bool.and_self]

theorem digitsVal_of_digits {l : List Char} (hne : l ≠ [])
    (hlen : l.length ≤ 4300) (h : ∀ c ∈ l, isDigitB c = true) :
    digitsVal l = some (natOfDigits l) := by
  obtain ⟨a, t, rfl⟩ := List.exists_cons_of_ne_nil hne
  have ha : isDigitB a = true := h a (List.mem_cons_self a t)
  have hr : restUOk t = true :=
    restUOk_of_digits (fun c hc => h c (List.mem_cons_of_mem a hc))
  have hf : List.filter (fun c => c != '_') (a :: t) = a :: t :=
    List.filter_eq_self.mpr (fun c hc => digit_bne_underscore (h c hc))
  simp only [digitsVal, digitsUOk, ha, hr, Bool.and_self, if_true, hf]
  rw [if_neg (by omega)]

theorem digitsVal_of_digits_over {l : List Char} (hlen : 4300 < l.length)
    (h : ∀ c ∈ l, isDigitB c = true) :
    digitsVal l = none := by
  cases l with
  | nil => simp at hlen
  | cons a t =>
    have ha : isDigitB a = true := h a (List.mem_cons_self a t)
    have hr : restUOk t = true :=
      restUOk_of_digits (fun c hc => h c (List.mem_cons_of_mem a hc))
    have hf : List.filter (fun c => c != '_') (a :: t) = a :: t :=
      List.filter_eq_self.mpr (fun c hc => digit_bne_underscore (h c hc))
    simp only [digitsVal, digitsUOk, ha, hr, Bool.and_self, if_true, hf]
    rw [if_pos hlen]

theorem pyInt_digits {l : List Char} (hne : l ≠ [])
    (hlen : l.length ≤ 4300) (h : ∀ c ∈ l, isDigitB c = true) :
    pyInt l = some ((natOfDigits l : Nat) : Int) := by
  obtain ⟨a, t, rfl⟩ := List.exists_cons_of_ne_nil hne
  unfold pyInt
  rw [pyStrip_eq_self (fun c hc => digit_not_space (h c hc))]
  simp only [pyIntCore]
  rw [if_neg (digit_ne_minus (h a (by simp))),
    if_neg (digit_ne_plus (h a (by simp)))]
  rw [digitsVal_of_digits (by simp) hlen h]
  rfl

theorem pyInt_digits_over {l : List Char} (hne : l ≠ [])
    (hlen : 4300 < l.length) (h : ∀ c ∈ l, isDigitB c = true) :
    pyInt l = none := by
  obtain ⟨a, t, rfl⟩ := List.exists_cons_of_ne_nil hne
  unfold pyInt
  rw [pyStrip_eq_self (fun c hc => digit_not_space (h c hc))]
  simp only [pyIntCore]
  rw [if_neg (digit_ne_minus (h a (by simp))),
    if_neg (digit_ne_plus (h a (by simp)))]
  rw [digitsVal_of_digits_over hlen h]
  rfl

theorem pyInt_neg_digits {l : List Char} (hne : l ≠ [])
    (hlen : l.length ≤ 4300) (h : ∀ c ∈ l, isDigitB c = true) :
    pyInt ('-' :: l) = some (-((natOfDigits l : Nat) : Int)) := by
  unfold pyInt
  have hs : pyStrip ('-' :: l) = '-' :: l := by
    refine pyStrip_eq_self ?_
    intro c hc
    rcases List.mem_cons.mp hc with rfl | hc
    · rfl
    · exact digit_not_space (h c hc)
  rw [hs]
  simp only [pyIntCore, if_true]
  rw [digitsVal_of_digits hne hlen h]
  rfl

theorem parse_rate_accepts (ds : List Char) (hne : ds ≠ [])
    (hlen : ds.length ≤ 4300) (hd : ∀ c ∈ ds, isDigitB c = true) :
    parse_audio_mime_type (String.mk ("rate=".data ++ ds)) =
      { bits_per_sample := 16, rate := ((natOfDigits ds : Nat) : Int) } ∧
    parse_audio_mime_type (String.mk ("rate=-".data ++ ds)) =
      { bits_per_sample := 16, rate := -((natOfDigits ds : Nat) : Int) } := by
  have hpre : ∀ c ∈ ("rate=-".data : List Char), pyIsSpace c = false ∧ c ≠ ';' := by
    intro c hc
    rw [show ("rate=-".data : List Char) = ['r', 'a', 't', 'e', '=', '-'] from rfl] at hc
    fin_cases hc <;> exact ⟨rfl, by decide⟩
  constructor
  · have hmem : ∀ c ∈ "rate=".data ++ ds, pyIsSpace c = false ∧ c ≠ ';' := by
      intro c hc
      rcases List.mem_append.mp hc with h1 | h1
      · refine hpre c ?_
        rw [show ("rate=-".data : List Char) = "rate=".data ++ ['-'] from rfl]
        exact List.mem_append_left _ h1
      · exact ⟨digit_not_space (hd c h1), digit_ne_semi (hd c h1)⟩
    unfold parse_audio_mime_type
    rw [show (String.mk ("rate=".data ++ ds)).data = "rate=".data ++ ds from rfl]
    rw [splitSemi_eq_single (fun c hc => (hmem c hc).2)]
    simp only [List.foldl_cons, List.foldl_nil, paramStep]
    rw [pyStrip_eq_self (fun c hc => (hmem c hc).1)]
    rw [List.map_append,
      show List.map pyLower "rate=".data = "rate=".data from rfl,
      startsWithL_append_self]
    rw [if_pos rfl]
    rw [show List.drop 5 ("rate=".data ++ ds) = ds from rfl]
    rw [pyInt_digits hne hlen hd]
    rfl
  · have hmem : ∀ c ∈ "rate=-".data ++ ds, pyIsSpace c = false ∧ c ≠ ';' := by
      intro c hc
      rcases List.mem_append.mp hc with h1 | h1
      · exact hpre c h1
      · exact ⟨digit_not_space (hd c h1), digit_ne_semi (hd c h1)⟩
    unfold parse_audio_mime_type
    rw [show (String.mk ("rate=-".data ++ ds)).data = "rate=-".data ++ ds from rfl]
    rw [splitSemi_eq_single (fun c hc => (hmem c hc).2)]
    simp only [List.foldl_cons, List.foldl_nil, paramStep]
    rw [pyStrip_eq_self (fun c hc => (hmem c hc).1)]
    rw [show ("rate=-".data ++ ds : List Char) = "rate=".data ++ ('-' :: ds) from rfl]
    rw [List.map_append,
      show List.map pyLower "rate=".data = "rate=".data from rfl,
      startsWithL_append_self]
    rw [if_pos rfl]
    rw [show List.drop 5 ("rate=".data ++ ('-' :: ds)) = '-' :: ds from rfl]
    rw [pyInt_neg_digits hne hlen hd]
    rfl

theorem parse_rate_over_limit (ds : List Char) (hlen : 4300 < ds.length)
    (hd : ∀ c ∈ ds, isDigitB c = true) :
    parse_audio_mime_type (String.mk ("rate=".data ++ ds)) =
      { bits_per_sample := 16, rate := 24000 } := by
  have hne : ds ≠ [] := by
    intro he
    rw [he] at hlen
    simp at hlen
  have hmem : ∀ c ∈ "rate=".data ++ ds, pyIsSpace c = false ∧ c ≠ ';' := by
    intro c hc
    rcases List.mem_append.mp hc with h1 | h1
    · rw [show ("rate=".data : List Char) = ['r', 'a', 't', 'e', '='] from rfl]
        at h1
      fin_cases h1 <;> exact ⟨rfl, by decide⟩
    · exact ⟨digit_not_space (hd c h1), digit_ne_semi (hd c h1)⟩
  unfold parse_audio_mime_type
  rw [show (String.mk ("rate=".data ++ ds)).data = "rate=".data ++ ds from rfl]
  rw [splitSemi_eq_single (fun c hc => (hmem c hc).2)]
  simp only [List.foldl_cons, List.foldl_nil, paramStep]
  rw [pyStrip_eq_self (fun c hc => (hmem c hc).1)]
  rw [List.map_append,
    show List.map pyLower "rate=".data = "rate=".data from rfl,
    startsWithL_append_self]
  rw [if_pos rfl]
  rw [show List.drop 5 ("rate=".data ++ ds) = ds from rfl]
  rw [pyInt_digits_over hne hlen hd]
  rfl

/-- C4: The WAV encoding is deterministic — the result of
`_convert_to_wav` depends only on its two arguments, so equal payloads
and equal descriptors give byte-identical output. -/
theorem claim_C4_deterministic (a1 a2 : List Nat) (m1 m2 : String)
    (ha : a1 = a2) (hm : m1 = m2) :
    convert_to_wav a1 m1 = convert_to_wav a2 m2 := by
  rw [ha, hm]

/-- Witness for C4 at a concrete payload and descriptor. -/
theorem claim_C4_witness :
    convert_to_wav [0, 1] "audio/L16;rate=24000" =
      convert_to_wav [0, 1] "audio/L16;rate=24000" :=
  claim_C4_deterministic [0, 1] [0, 1] "audio/L16;rate=24000"
    "audio/L16;rate=24000" rfl rfl

theorem foldl_digits_zeros (n : Nat) : ∀ a : Nat,
    List.foldl (fun acc c => 10 * acc + (c.toNat - 48)) a
      (List.replicate n '0') = a * 10 ^ n := by
  induction n with
  | zero => intro a; simp
  | succ k ih =>
    intro a
    rw [List.replicate_succ, List.foldl_cons, ih]
    rw [show (Char.toNat '0' - 48) = 0 from rfl]
    ring

theorem natOfDigits_one_zeros (n : Nat) :
    natOfDigits ('1' :: List.replicate n '0') = 10 ^ n := by
  unfold natOfDigits
  rw [List.foldl_cons, show (10 * 0 + (Char.toNat '1' - 48)) = 1 from rfl,
    foldl_digits_zeros n 1, one_mul]

/-- Counterexample to C10 as stated: the numeral `1` followed by 4300
zeros after `rate=` exceeds CPython's default int-max-str-digits
conversion limit, so `int()` raises `ValueError`, the parser catches it,
and the rate falls back to the default 24000 instead of the numeral's
value `10^4300`. -/
theorem claim_C10_counterexample :
    parse_audio_mime_type
      (String.mk ("rate=".data ++ '1' :: List.replicate 4300 '0')) =
      { bits_per_sample := 16, rate := 24000 } ∧
    natOfDigits ('1' :: List.replicate 4300 '0') ≠ 24000 := by
  constructor
  · refine parse_rate_over_limit ('1' :: List.replicate 4300 '0') ?_ ?_
    · rw [List.length_cons, List.length_replicate]
      omega
    · intro c hc
      rcases List.mem_cons.mp hc with rfl | hmem
      · decide
      · rw [List.eq_of_mem_replicate hmem]
        decide
  · rw [natOfDigits_one_zeros]
    exact ne_of_gt (lt_of_lt_of_le (by norm_num : (24000 : Nat) < 10 ^ 5)
      (Nat.pow_le_pow_right (by norm_num) (by norm_num)))

/-- C10 (amended): descriptor parsing is total — the embedding
`parse_audio_mime_type` is a total function returning a bits/rate record
on every string (empty, no `;`, no `=`, non-numeric pieces included) —
and any digit string of at most 4300 digits (CPython's default `int()`
conversion limit) with an optional leading sign after `rate=` is
accepted as the rate, including zero and negatives such as `rate=-5`,
rather than falling back to the default; a longer numeral makes `int()`
raise `ValueError`, which the parser catches, keeping the default
rate. -/
theorem claim_C10_parser_total :
    (∀ ds : List Char, ds ≠ [] → ds.length ≤ 4300 →
      (∀ c ∈ ds, isDigitB c = true) →
      parse_audio_mime_type (String.mk ("rate=".data ++ ds)) =
        { bits_per_sample := 16, rate := ((natOfDigits ds : Nat) : Int) } ∧
      parse_audio_mime_type (String.mk ("rate=-".data ++ ds)) =
        { bits_per_sample := 16, rate := -((natOfDigits ds : Nat) : Int) }) ∧
    (∀ ds : List Char, 4300 < ds.length → (∀ c ∈ ds, isDigitB c = true) →
      parse_audio_mime_type (String.mk ("rate=".data ++ ds)) =
        { bits_per_sample := 16, rate := 24000 }) ∧
    parse_audio_mime_type "" = { bits_per_sample := 16, rate := 24000 } ∧
    parse_audio_mime_type "nonsense" = { bits_per_sample := 16, rate := 24000 } ∧
    parse_audio_mime_type ";;=;rate;audio/L" =
      { bits_per_sample := 16, rate := 24000 } ∧
    parse_audio_mime_type "rate=0" = { bits_per_sample := 16, rate := 0 } ∧
    parse_audio_mime_type "rate=-5" = { bits_per_sample := 16, rate := -5 } ∧
    parse_audio_mime_type "audio/L16;rate=+7" =
      { bits_per_sample := 16, rate := 7 } :=
  ⟨parse_rate_accepts, parse_rate_over_limit, by decide, by decide, by decide,
    by decide, by decide, by decide⟩

/-- Witness for C10's universally quantified part at the digit string
`"42"`. -/
theorem claim_C10_witness :
    parse_audio_mime_type (String.mk ("rate=".data ++ ['4', '2'])) =
      { bits_per_sample := 16, rate := ((natOfDigits ['4', '2'] : Nat) : Int) } ∧
    parse_audio_mime_type (String.mk ("rate=-".data ++ ['4', '2'])) =
      { bits_per_sample := 16, rate := -((natOfDigits ['4', '2'] : Nat) : Int) } :=
  claim_C10_parser_total.1 ['4', '2'] (by decide) (by decide) (by decide)

theorem leVal_le4 {m : Nat} (h : m < 4294967296) : leVal (le4 m) = m := by
  simp only [le4, leVal]
  omega

theorem leVal_le2 {m : Nat} (h : m < 65536) : leVal (le2 m) = m := by
  simp only [le2, leVal]
  omega

/-- Successful runs of `_convert_to_wav`, unfolded: the range conditions
`struct.pack` enforces all hold and the output is the canonical header
followed by the payload. -/
theorem convert_to_wav_eq {audio : List Nat} {mime : String} {out : List Nat}
    (h : convert_to_wav audio mime = some out) :
    (0 ≤ 36 + (audio.length : Int) ∧ 36 + (audio.length : Int) < 4294967296) ∧
    (0 ≤ (parse_audio_mime_type mime).bits_per_sample ∧
      (parse_audio_mime_type mime).bits_per_sample < 65536) ∧
    (0 ≤ 1 * Int.fdiv (parse_audio_mime_type mime).bits_per_sample 8 ∧
      1 * Int.fdiv (parse_audio_mime_type mime).bits_per_sample 8 < 65536) ∧
    (0 ≤ (parse_audio_mime_type mime).rate ∧
      (parse_audio_mime_type mime).rate < 4294967296) ∧
    (0 ≤ (parse_audio_mime_type mime).rate *
        (1 * Int.fdiv (parse_audio_mime_type mime).bits_per_sample 8) ∧
      (parse_audio_mime_type mime).rate *
        (1 * Int.fdiv (parse_audio_mime_type mime).bits_per_sample 8) < 4294967296) ∧
    out = asciiBytes "RIFF" ++ le4 (36 + audio.length) ++ asciiBytes "WAVE" ++
      asciiBytes "fmt " ++ le4 16 ++ le2 1 ++ le2 1 ++
      le4 (parse_audio_mime_type mime).rate.toNat ++
      le4 ((parse_audio_mime_type mime).rate *
        (1 * Int.fdiv (parse_audio_mime_type mime).bits_per_sample 8)).toNat ++
      le2 (1 * Int.fdiv (parse_audio_mime_type mime).bits_per_sample 8).toNat ++
      le2 (parse_audio_mime_type mime).bits_per_sample.toNat ++
      asciiBytes "data" ++ le4 audio.length ++ audio := by
  simp only [convert_to_wav] at h
  split at h
  case isTrue hc =>
    simp only [Bool.and_eq_true, inU32, inU16, decide_eq_true_eq] at hc
    obtain ⟨⟨⟨⟨⟨h1, h2⟩, h3⟩, h4⟩, h5⟩, h6⟩ := hc
    exact ⟨h1, h2, h3, h4, h5, (Option.some.inj h).symm⟩
  case isFalse => exact absurd h (by simp)

theorem asciiBytes_RIFF : asciiBytes "RIFF" = [82, 73, 70, 70] := rfl

theorem asciiBytes_WAVE : asciiBytes "WAVE" = [87, 65, 86, 69] := rfl

theorem asciiBytes_fmt : asciiBytes "fmt " = [102, 109, 116, 32] := rfl

theorem asciiBytes_data : asciiBytes "data" = [100, 97, 116, 97] := rfl

/-- Counterexample to C1 as stated: the quantifier "every descriptor
string" fails, because a descriptor whose parsed rate is negative (such
as `"rate=-1"`) makes `struct.pack` raise `struct.error` instead of
producing any output. -/
theorem claim_C1_counterexample : convert_to_wav [] "rate=-1" = none := by
  decide

/-- C1 (amended): whenever `_convert_to_wav` succeeds — in particular
for every descriptor whose parsed parameters fit the header's unsigned
fields and every payload with `36 + n < 2^32` — the output is a 44-byte
header followed by the `n` payload bytes verbatim, the `ChunkSize` field
(little-endian at offset 4) equals `36 + n` and the `Subchunk2Size`
field (little-endian at offset 40) equals `n`. -/
theorem claim_C1_wav_layout (audio : List Nat) (mime : String) (out : List Nat)
    (h : convert_to_wav audio mime = some out) :
    out.length = 44 + audio.length ∧
    List.drop 44 out = audio ∧
    List.take 4 out = asciiBytes "RIFF" ∧
    leVal (List.take 4 (List.drop 4 out)) = 36 + audio.length ∧
    List.take 4 (List.drop 36 out) = asciiBytes "data" ∧
    leVal (List.take 4 (List.drop 40 out)) = audio.length := by
  obtain ⟨hcs, hbits, hba, hr, hbr, hout⟩ := convert_to_wav_eq h
  subst hout
  refine ⟨?_, rfl, rfl, ?_, rfl, ?_⟩
  · rw [asciiBytes_RIFF, asciiBytes_WAVE, asciiBytes_fmt, asciiBytes_data]
    simp only [le4, le2, List.length_append, List.length_cons, List.length_nil]
  · change leVal (le4 (36 + audio.length)) = _
    rw [leVal_le4 (by omega)]
  · change leVal (le4 audio.length) = _
    rw [leVal_le4 (by omega)]

/-- Witness for C1's amended theorem at a concrete payload and
descriptor. -/
theorem claim_C1_witness :
    ((convert_to_wav [9, 8, 7] "audio/L16;rate=24000").getD []).length = 44 + 3 ∧
    List.drop 44 ((convert_to_wav [9, 8, 7] "audio/L16;rate=24000").getD []) =
      [9, 8, 7] ∧
    leVal (List.take 4 (List.drop 4
      ((convert_to_wav [9, 8, 7] "audio/L16;rate=24000").getD []))) = 36 + 3 ∧
    leVal (List.take 4 (List.drop 40
      ((convert_to_wav [9, 8, 7] "audio/L16;rate=24000").getD []))) = 3 := by
  have h : convert_to_wav [9, 8, 7] "audio/L16;rate=24000" =
      some ((convert_to_wav [9, 8, 7] "audio/L16;rate=24000").getD []) := by decide
  have := claim_C1_wav_layout [9, 8, 7] "audio/L16;rate=24000" _ h
  exact ⟨this.1, this.2.1, this.2.2.2.1, this.2.2.2.2.2⟩

/-- C2: on every successful encoding whose parsed bit depth is a
multiple of 8 (the valid bit depths), the header carries
`Subchunk1Size = 16` at offset 16, `AudioFormat = 1` at offset 20,
`NumChannels = 1` at offset 22, `SampleRate` at offset 24,
`ByteRate = SampleRate × (BitsPerSample/8)` at offset 28,
`BlockAlign = BitsPerSample/8` at offset 32 and `BitsPerSample` at
offset 34, each little-endian at the standard 44-byte PCM WAV
offsets. -/
theorem claim_C2_header_fields (audio : List Nat) (mime : String) (out : List Nat)
    (h : convert_to_wav audio mime = some out)
    (_hdiv : (parse_audio_mime_type mime).bits_per_sample % 8 = 0) :
    leVal (List.take 4 (List.drop 16 out)) = 16 ∧
    leVal (List.take 2 (List.drop 20 out)) = 1 ∧
    leVal (List.take 2 (List.drop 22 out)) = 1 ∧
    leVal (List.take 4 (List.drop 24 out)) =
      (parse_audio_mime_type mime).rate.toNat ∧
    leVal (List.take 4 (List.drop 28 out)) =
      (parse_audio_mime_type mime).rate.toNat *
        ((parse_audio_mime_type mime).bits_per_sample.toNat / 8) ∧
    leVal (List.take 2 (List.drop 32 out)) =
      (parse_audio_mime_type mime).bits_per_sample.toNat / 8 ∧
    leVal (List.take 2 (List.drop 34 out)) =
      (parse_audio_mime_type mime).bits_per_sample.toNat := by
  obtain ⟨hcs, hbits, hba, hr, hbr, hout⟩ := convert_to_wav_eq h
  subst hout
  have e1 : Int.fdiv (parse_audio_mime_type mime).bits_per_sample 8 =
      (((parse_audio_mime_type mime).bits_per_sample.toNat / 8 : Nat) : Int) := by
    conv_lhs => rw [← Int.toNat_of_nonneg hbits.1]
    rw [Int.fdiv_eq_tdiv (by positivity) (by norm_num)]
    exact (Int.ofNat_tdiv _ 8).symm
  obtain ⟨R, hR⟩ : ∃ R : Nat, (parse_audio_mime_type mime).rate = (R : Int) :=
    ⟨(parse_audio_mime_type mime).rate.toNat, (Int.toNat_of_nonneg hr.1).symm⟩
  refine ⟨?_, ?_, ?_, ?_, ?_, ?_, ?_⟩
  · change leVal (le4 16) = _
    decide
  · change leVal (le2 1) = _
    decide
  · change leVal (le2 1) = _
    decide
  · change leVal (le4 (parse_audio_mime_type mime).rate.toNat) = _
    exact leVal_le4 (by omega)
  · change leVal (le4 ((parse_audio_mime_type mime).rate *
      (1 * Int.fdiv (parse_audio_mime_type mime).bits_per_sample 8)).toNat) = _
    rw [leVal_le4 (by omega), one_mul, e1, hR, ← Int.natCast_mul]
    simp only [Int.toNat_natCast]
  · change leVal (le2 (1 * Int.fdiv (parse_audio_mime_type mime).bits_per_sample
      8).toNat) = _
    rw [leVal_le2 (by omega), one_mul, e1, Int.toNat_natCast]
  · change leVal (le2 (parse_audio_mime_type mime).bits_per_sample.toNat) = _
    exact leVal_le2 (by omega)

/-- Witness for C2 at the descriptor `"audio/L16;rate=24000"`:
ByteRate 48000, BlockAlign 2, SampleRate 24000, NumChannels 1,
AudioFormat 1, Subchunk1Size 16. -/
theorem claim_C2_witness :
    leVal (List.take 4 (List.drop 16
      ((convert_to_wav [5] "audio/L16;rate=24000").getD []))) = 16 ∧
    leVal (List.take 2 (List.drop 20
      ((convert_to_wav [5] "audio/L16;rate=24000").getD []))) = 1 ∧
    leVal (List.take 2 (List.drop 22
      ((convert_to_wav [5] "audio/L16;rate=24000").getD []))) = 1 ∧
    leVal (List.take 4 (List.drop 24
      ((convert_to_wav [5] "audio/L16;rate=24000").getD []))) = 24000 ∧
    leVal (List.take 4 (List.drop 28
      ((convert_to_wav [5] "audio/L16;rate=24000").getD []))) = 48000 ∧
    leVal (List.take 2 (List.drop 32
      ((convert_to_wav [5] "audio/L16;rate=24000").getD []))) = 2 := by
  have h : convert_to_wav [5] "audio/L16;rate=24000" =
      some ((convert_to_wav [5] "audio/L16;rate=24000").getD []) := by decide
  have hc := claim_C2_header_fields [5] "audio/L16;rate=24000" _ h (by decide)
  exact ⟨hc.1, hc.2.1, hc.2.2.1, hc.2.2.2.1.trans (by decide),
    hc.2.2.2.2.1.trans (by decide), hc.2.2.2.2.2.1.trans (by decide)⟩

/-- A stream chunk with no candidates (skipped by the loop). -/
def chunkNoAudio : StreamChunk :=
  { candidates := [] }

/-- A stream chunk whose first candidate's first part carries inline
audio bytes with the given declared MIME type. -/
def chunkWith (bytes : List Nat) (mime : String) : StreamChunk :=
  { candidates := [{ content := some [{ inline_data := some { data := bytes, mime_type := mime } }] }] }

/-- C5: in `generate_audio_feedback`, the WAV encoder is applied to the
received audio bytes exactly when the provider's declared content type
has no known extension (`mimetypes.guess_extension` returns none, here
the abstract table `g`); when an extension is resolvable the received
bytes are written through unmodified. -/
theorem claim_C5_encoder_iff (g : String → Option String)
    (chunks : List StreamChunk) (d : InlineData)
    (h : firstAudioData chunks = some d) :
    (g d.mime_type = none →
      generate_audio_output g chunks =
        (convert_to_wav d.data d.mime_type).map (fun b => (".wav", b))) ∧
    (∀ ext, g d.mime_type = some ext →
      generate_audio_output g chunks = some (ext, d.data)) := by
  unfold generate_audio_output
  rw [h]
  simp only [Option.some_bind]
  refine ⟨fun hg => ?_, fun ext hg => ?_⟩ <;> rw [hg]

/-- Witness for C5: with an extension table that knows the type, the
bytes pass through; with one that does not, the encoder output is
written. -/
theorem claim_C5_witness :
    generate_audio_output (fun _ => some ".mp3") [chunkWith [7] "audio/known"] =
      some (".mp3", [7]) ∧
    generate_audio_output (fun _ => none) [chunkWith [7] "audio/L16;rate=24000"] =
      (convert_to_wav [7] "audio/L16;rate=24000").map (fun b => (".wav", b)) :=
  ⟨(claim_C5_encoder_iff (fun _ => some ".mp3") [chunkWith [7] "audio/known"]
      { data := [7], mime_type := "audio/known" } (by decide)).2 ".mp3" rfl,
   (claim_C5_encoder_iff (fun _ => none) [chunkWith [7] "audio/L16;rate=24000"]
      { data := [7], mime_type := "audio/L16;rate=24000" } (by decide)).1 rfl⟩

theorem firstAudioData_append {pre rest : List StreamChunk}
    (h : ∀ x ∈ pre, usableData x = none) :
    firstAudioData (pre ++ rest) = firstAudioData rest := by
  induction pre with
  | nil => rfl
  | cons a t ih =>
    rw [List.cons_append]
    simp only [firstAudioData, h a (List.mem_cons_self a t)]
    exact ih (fun x hx => h x (List.mem_cons_of_mem a hx))

/-- C9: the stream loop of `generate_audio_feedback` stops at the first
chunk carrying inline audio data: the produced output is exactly the
output of consuming the one-chunk stream — the bytes written come from
that chunk only — and no later chunk influences (or is needed for) the
result. -/
theorem claim_C9_stop_at_first_chunk (g : String → Option String)
    (pre post : List StreamChunk) (c : StreamChunk) (d : InlineData)
    (hpre : ∀ x ∈ pre, usableData x = none) (hc : usableData c = some d) :
    firstAudioData (pre ++ c :: post) = some d ∧
    generate_audio_output g (pre ++ c :: post) = generate_audio_output g [c] := by
  have h1 : firstAudioData (pre ++ c :: post) = some d := by
    rw [firstAudioData_append hpre]
    simp only [firstAudioData, hc]
  have h2 : firstAudioData [c] = some d := by
    simp only [firstAudioData, hc]
  refine ⟨h1, ?_⟩
  unfold generate_audio_output
  rw [h1, h2]

/-- Witness for C9: a stream with one unusable chunk, then an audio
chunk, then a trailing chunk that would carry different bytes; the
result equals consuming the middle chunk alone. -/
theorem claim_C9_witness :
    firstAudioData ([chunkNoAudio] ++ chunkWith [5] "audio/x" ::
      [chunkWith [9] "audio/x"]) =
      some { data := [5], mime_type := "audio/x" } ∧
    generate_audio_output (fun _ => some ".bin")
      ([chunkNoAudio] ++ chunkWith [5] "audio/x" :: [chunkWith [9] "audio/x"]) =
      generate_audio_output (fun _ => some ".bin") [chunkWith [5] "audio/x"] :=
  claim_C9_stop_at_first_chunk (fun _ => some ".bin") [chunkNoAudio]
    [chunkWith [9] "audio/x"] (chunkWith [5] "audio/x")
    { data := [5], mime_type := "audio/x" } (by decide) (by decide)

theorem move_idea_preserves (fs : FS) (p : String) :
    (move_idea_to_evaluated fs p).folders = fs.folders ∧
    (move_idea_to_evaluated fs p).emailCalls = fs.emailCalls := by
  unfold move_idea_to_evaluated
  split <;> exact ⟨rfl, rfl⟩

/-- C7: with the email-delivery API key unset (and email delivery
requested, the default), `process_business_idea` still creates the
output folder with all four local artifacts, reports the
`email_sent` flag as false, and the notifier performs no network call —
`send_email_with_attachments` returns false without issuing any HTTP
request, leaving the post count unchanged. -/
theorem claim_C7_missing_email_key (fs : FS) (slug ts : String)
    (providerOk : Bool) (inputPath : Option String) :
    (∀ (providerOk2 : Bool) (calls : Nat),
      send_email_with_attachments false providerOk2 calls = (false, calls)) ∧
    (process_business_idea fs slug ts true false providerOk inputPath).2 = false ∧
    (process_business_idea fs slug ts true false providerOk
      inputPath).1.emailCalls = fs.emailCalls ∧
    (process_business_idea fs slug ts true false providerOk
      inputPath).1.folders =
      (folderName ts slug, [slug ++ "_audio.wav", slug ++ "_analysis.md",
        slug ++ "_analysis.pdf", slug ++ "_analysis.txt"]) :: fs.folders := by
  refine ⟨fun providerOk2 calls => rfl, rfl, ?_, ?_⟩
  · cases inputPath with
    | none => rfl
    | some p => exact (move_idea_preserves _ p).2
  · cases inputPath with
    | none => rfl
    | some p => exact (move_idea_preserves _ p).1

theorem runAll_nil (fs : FS) (outcome : String → IdeaOutcome) (se hk : Bool) :
    runAll fs [] outcome se hk = (fs, 0, 0) := rfl

theorem digitChar_inj {a b : Nat} (ha : a < 10) (hb : b < 10)
    (h : Nat.digitChar a = Nat.digitChar b) : a = b := by
  interval_cases a <;> interval_cases b <;> revert h <;> decide

theorem fmtTS_data_len (t : TS) : (fmtTS t).data.length = 15 := by
  simp [fmtTS, pad4, pad2]

/-- Counterexample to C8 as stated: two distinct pending ideas processed
in the same wall-clock second with the same suggested slug are written
into one and the same output folder (the folder name depends only on the
timestamp and the slug, and `mkdir(exist_ok=True)` does not object). -/
theorem claim_C8_counterexample :
    ((runAll ⟨[("a.md", "idea one"), ("b.md", "idea two")], [], [], 0⟩
        [("a.md", "idea one"), ("b.md", "idea two")]
        (fun _ => IdeaOutcome.ok "app" "20240101_120000" true)
        false false).1).folders.map Prod.fst =
      ["20240101_120000_app", "20240101_120000_app"] := by decide

/-- C8 (amended): output folder names coincide exactly when both the
second-resolution timestamps and the suggested slugs coincide; in
particular two ideas whose timestamps differ (distinct seconds) always
get distinct folders, whatever their slugs, while two ideas sharing the
same second and the same slug collide. -/
theorem claim_C8_folder_names (t1 t2 : TS) (s1 s2 : String)
    (h1 : validTS t1) (h2 : validTS t2) :
    folderName (fmtTS t1) s1 = folderName (fmtTS t2) s2 ↔ t1 = t2 ∧ s1 = s2 := by
  constructor
  · intro h
    have hd : (fmtTS t1).data ++ ('_' :: s1.data) =
        (fmtTS t2).data ++ ('_' :: s2.data) := by
      have h3 := congrArg String.data h
      simp only [folderName, String.data_append] at h3
      simpa [List.append_assoc] using h3
    obtain ⟨hfmt, hrest⟩ :=
      List.append_inj hd (by rw [fmtTS_data_len, fmtTS_data_len])
    have hs : s1 = s2 := by
      have : s1.data = s2.data := by injection hrest
      obtain ⟨l1⟩ := s1
      obtain ⟨l2⟩ := s2
      exact congrArg String.mk this
    refine ⟨?_, hs⟩
    obtain ⟨y1, mo1, d1, hh1, mi1, ss1⟩ := t1
    obtain ⟨y2, mo2, d2, hh2, mi2, ss2⟩ := t2
    simp only [validTS] at h1 h2
    simp only [fmtTS, pad4, pad2, List.cons_append, List.nil_append,
      List.cons.injEq, and_true, List.append_nil] at hfmt
    obtain ⟨e1, e2, e3, e4, e5, e6, e7, e8, e9, e10, e11, e12, e13, e14,
      e15⟩ := hfmt
    have q1 := digitChar_inj (by omega) (by omega) e1
    have q2 := digitChar_inj (by omega) (by omega) e2
    have q3 := digitChar_inj (by omega) (by omega) e3
    have q4 := digitChar_inj (by omega) (by omega) e4
    have q5 := digitChar_inj (by omega) (by omega) e5
    have q6 := digitChar_inj (by omega) (by omega) e6
    have q7 := digitChar_inj (by omega) (by omega) e7
    have q8 := digitChar_inj (by omega) (by omega) e8
    have q10 := digitChar_inj (by omega) (by omega) e10
    have q11 := digitChar_inj (by omega) (by omega) e11
    have q12 := digitChar_inj (by omega) (by omega) e12
    have q13 := digitChar_inj (by omega) (by omega) e13
    have q14 := digitChar_inj (by omega) (by omega) e14
    have q15 := digitChar_inj (by omega) (by omega) e15
    simp only [TS.mk.injEq]
    refine ⟨by omega, by omega, by omega, by omega, by omega, by omega⟩
  · rintro ⟨rfl, rfl⟩
    rfl

/-- Witness for C8's amended theorem: two timestamps one second apart
give distinct folder names even with equal slugs. -/
theorem claim_C8_witness :
    folderName (fmtTS ⟨2024, 1, 2, 3, 4, 5⟩) "app" ≠
      folderName (fmtTS ⟨2024, 1, 2, 3, 4, 6⟩) "app" :=
  fun h => absurd
    ((claim_C8_folder_names ⟨2024, 1, 2, 3, 4, 5⟩ ⟨2024, 1, 2, 3, 4, 6⟩
      "app" "app" (by decide) (by decide)).mp h).1 (by decide)
